import Mathlib

/-!
Verification of the constitution-search ingestion pipeline.

The development shallowly embeds the core of the pipeline:

* the heuristic block classifier and hierarchical-context tracker of
  `ConstitutionScrapingService._parseConstitutionHtml`,
* the transformer `ConstitutionScrapingService._transformData`,
* the streaming parser `StreamingHtmlParserService`
  (`detectElementType`, `updateContext`, `parseHtmlChunk`, `parseHtmlStream`),
* the index gateway `TypesenseService`
  (`ensureCollectionExists`, `indexDocuments`),
* the run orchestration `processConstitution` and
  `AppService.triggerConstitutionScrapingAndIndexing`.

Text is modelled as `List Char` (the JavaScript string of the source).
JavaScript string/regex operations used by the source are embedded as
executable functions below; all regexes in the source are anchored,
star/plus-greedy and effectively deterministic on the inputs concerned, so
they are embedded as greedy left-to-right matchers.  DOM-derived facts that
the classifier consumes (alignment, boldness, placement inside layout
tables, lookahead paragraph text, ...) are modelled as fields of the input
block record, mirroring the spec's "rendering hints".
-/

deriving instance DecidableEq for Except

namespace ConstitutionSearch

/-! ## JavaScript character and string primitives -/

/-- Whitespace recognised by JavaScript `\s` / `trim` restricted to the
characters that occur in the source document (ASCII whitespace and the
no-break space produced by decoding `&nbsp;`). -/
def jsIsWs (c : Char) : Bool :=
  c = ' ' || c = '\t' || c = '\n' || c = '\r' ||
  c = Char.ofNat 11 || c = Char.ofNat 12 || c = Char.ofNat 160

/-- ASCII decimal digit, JavaScript `\d`. -/
def jsIsDigit (c : Char) : Bool :=
  '0' ≤ c && c ≤ '9'

/-- ASCII letter or digit, the complement of the source's `[^a-zA-Z0-9]`. -/
def jsIsAlnum (c : Char) : Bool :=
  ('a' ≤ c && c ≤ 'z') || ('A' ≤ c && c ≤ 'Z') || ('0' ≤ c && c ≤ '9')

/-- Per-character JavaScript `toLowerCase` on the Latin-1 range covered by
the source document (ASCII plus the accented capitals `À`..`Þ` except the
multiplication sign).  Multi-character case foldings (e.g. `ß`) do not occur
in the texts concerned and are not modelled. -/
def jsCharLower (c : Char) : Char :=
  let v := c.toNat
  if 65 ≤ v ∧ v ≤ 90 then Char.ofNat (v + 32)
  else if 192 ≤ v ∧ v ≤ 222 ∧ v ≠ 215 then Char.ofNat (v + 32)
  else c

/-- Per-character JavaScript `toUpperCase` on the same Latin-1 range. -/
def jsCharUpper (c : Char) : Char :=
  let v := c.toNat
  if 97 ≤ v ∧ v ≤ 122 then Char.ofNat (v - 32)
  else if 224 ≤ v ∧ v ≤ 254 ∧ v ≠ 247 then Char.ofNat (v - 32)
  else c

/-- JavaScript `toLowerCase` over a whole string. -/
def jsLower (l : List Char) : List Char := l.map jsCharLower

/-- JavaScript `toUpperCase` over a whole string. -/
def jsUpper (l : List Char) : List Char := l.map jsCharUpper

/-- Case-insensitive character comparison, as used by the `/i` regex flag. -/
def ciEq (c d : Char) : Bool := jsCharLower c = jsCharLower d

/-- Case-insensitive `startsWith`, for anchored `/i` literal regexes. -/
def ciStarts : List Char → List Char → Bool
  | [], _ => true
  | _ :: _, [] => false
  | p :: ps, c :: cs => ciEq p c && ciStarts ps cs

/-- Case-insensitive substring search, for unanchored `/i` regex `test`. -/
def ciContains (pat : List Char) : List Char → Bool
  | [] => ciStarts pat []
  | c :: cs => ciStarts pat (c :: cs) || ciContains pat cs

/-- Case-sensitive substring search, JavaScript `String.includes`. -/
def csContains (pat : List Char) : List Char → Bool
  | [] => pat.isPrefixOf []
  | c :: cs => pat.isPrefixOf (c :: cs) || csContains pat cs

/-- JavaScript `trim`: drop leading and trailing whitespace. -/
def jsTrim (l : List Char) : List Char :=
  ((l.dropWhile jsIsWs).reverse.dropWhile jsIsWs).reverse

/-- Scanner for `replace(/\s\s+/g, ' ')`.  The first argument is the
pending whitespace run: `none` outside a run, `some (w, more)` inside a run
that started with character `w` and has (`more`) or has not yet seen a
second character.  A finished run of length one is emitted verbatim, a
longer run as a single space — exactly the effect of replacing every
match of two-or-more whitespace characters by one space. -/
def collapseWsAux : Option (Char × Bool) → List Char → List Char
  | none, [] => []
  | some (w, more), [] => if more then [' '] else [w]
  | none, c :: rest =>
    if jsIsWs c then collapseWsAux (some (c, false)) rest
    else c :: collapseWsAux none rest
  | some (w, more), c :: rest =>
    if jsIsWs c then collapseWsAux (some (w, true)) rest
    else (if more then ' ' else w) :: c :: collapseWsAux none rest

/-- JavaScript `replace(/\s\s+/g, ' ')`: every run of two or more
whitespace characters becomes a single space; a lone whitespace character is
kept as-is. -/
def collapseWs (l : List Char) : List Char := collapseWsAux none l

/-- The whitespace normalisation applied to every block's text:
`text.trim().replace(/\s\s+/g, ' ')`. -/
def normalizeWs (l : List Char) : List Char := collapseWs (jsTrim l)

/-- Greedy match of `\s*`: split off leading whitespace. -/
def dropWsGreedy (l : List Char) : List Char := l.dropWhile jsIsWs

/-- Greedy match of `\d+`: the matched digits and the rest, or `none` if the
first character is not a digit. -/
def takeDigits1 (l : List Char) : Option (List Char × List Char) :=
  let ds := l.takeWhile jsIsDigit
  if ds = [] then none else some (ds, l.dropWhile jsIsDigit)

/-- JavaScript truthiness of an optional string (`undefined` and `""` are
falsy), used wherever the source tests a context field or `||`-chains
strings. -/
def truthy : Option (List Char) → Bool
  | none => false
  | some s => s ≠ []

/-- JavaScript `a || b` on optional strings: `a` when truthy, else `b`. -/
def jsOrStr (a b : Option (List Char)) : Option (List Char) :=
  if truthy a then a else b

/-- JavaScript `a.replace(b, '')` with a plain-string pattern: remove the
first occurrence of `pat`; the empty pattern matches at position 0 and
removes nothing. -/
def removeFirst (pat : List Char) : List Char → List Char
  | [] => []
  | c :: cs =>
    if pat.isPrefixOf (c :: cs) then (c :: cs).drop pat.length
    else c :: removeFirst pat cs

/-! ## Anchored regex matchers of the source

Every matcher returns the length of the match (so the matched token is
`take` of the original text, preserving its casing, exactly like
JavaScript `match()[0]`), or a plain `Bool` when the source only calls
`test`. -/

/-- Test of `/^EMENDA CONSTITUCIONAL Nº \d+/i` against the text. -/
def matchEmenda (t : List Char) : Bool :=
  let pat := "EMENDA CONSTITUCIONAL Nº ".data
  ciStarts pat t && jsIsDigit ((t.drop pat.length).headD ' ')

/-- Match length of `/^Art\.\s*\d+º?\.?/i` at the start of `t`. -/
def artMatchLen (t : List Char) : Option Nat :=
  if ciStarts "Art.".data t then
    let r0 := t.drop 4
    let nws := (r0.takeWhile jsIsWs).length
    let r1 := r0.dropWhile jsIsWs
    let nds := (r1.takeWhile jsIsDigit).length
    if nds = 0 then none
    else
      let r2 := r1.dropWhile jsIsDigit
      match r2 with
      | 'º' :: '.' :: _ => some (4 + nws + nds + 2)
      | 'º' :: _ => some (4 + nws + nds + 1)
      | '.' :: _ => some (4 + nws + nds + 1)
      | _ => some (4 + nws + nds)
  else none

/-- Match length of `/^§\s*\d+º?\.?/i` at the start of `t`. -/
def paraMatchLen (t : List Char) : Option Nat :=
  match t with
  | '§' :: r0 =>
    let nws := (r0.takeWhile jsIsWs).length
    let r1 := r0.dropWhile jsIsWs
    let nds := (r1.takeWhile jsIsDigit).length
    if nds = 0 then none
    else
      let r2 := r1.dropWhile jsIsDigit
      match r2 with
      | 'º' :: '.' :: _ => some (1 + nws + nds + 2)
      | 'º' :: _ => some (1 + nws + nds + 1)
      | '.' :: _ => some (1 + nws + nds + 1)
      | _ => some (1 + nws + nds)
  | _ => none

/-- Upper-case roman numeral letter, the class `[IVXLCDM]`. -/
def isRomanUpper (c : Char) : Bool :=
  c = 'I' || c = 'V' || c = 'X' || c = 'L' || c = 'C' || c = 'D' || c = 'M'

/-- Test of the case-sensitive anchored pattern "([IVXLCDM]+)\s*" followed
by a dash and "\s*" (the classifier's inciso regex). -/
def incisoDashTest (t : List Char) : Bool :=
  let rom := t.takeWhile isRomanUpper
  rom ≠ [] &&
    match (t.drop rom.length).dropWhile jsIsWs with
    | '-' :: _ => true
    | _ => false

/-- Test of `/^[a-z]\)\s+/` (case-sensitive) against the text. -/
def alineaTest : List Char → Bool
  | c :: ')' :: d :: _ => ('a' ≤ c && c ≤ 'z') && jsIsWs d
  | _ => false

/-- Word count `text.split(' ').length`: one more than the number of plain
spaces. -/
def splitSpaceCount (t : List Char) : Nat :=
  (t.filter (· = ' ')).length + 1

/-- ASCII letter, the class `[a-zA-Z]`. -/
def isAsciiLetter (c : Char) : Bool :=
  ('a' ≤ c && c ≤ 'z') || ('A' ≤ c && c ≤ 'Z')

/-- Test of `/^Brasília,\s*\d+\s*de\s*[a-zA-Z]+\s*de\s*\d{4}\./i` against
the text. -/
def localDataTest (t : List Char) : Bool :=
  let pat := "Brasília,".data
  if ciStarts pat t then
    let r1 := (t.drop pat.length).dropWhile jsIsWs
    match takeDigits1 r1 with
    | none => false
    | some (_, r2) =>
      let r3 := r2.dropWhile jsIsWs
      if ciStarts "de".data r3 then
        let r4 := (r3.drop 2).dropWhile jsIsWs
        let letters := r4.takeWhile isAsciiLetter
        if letters = [] then false
        else
          let r6 := (r4.dropWhile isAsciiLetter).dropWhile jsIsWs
          if ciStarts "de".data r6 then
            match (r6.drop 2).dropWhile jsIsWs with
            | a :: b :: c :: d :: '.' :: _ =>
              jsIsDigit a && jsIsDigit b && jsIsDigit c && jsIsDigit d
            | _ => false
          else false
      else false
  else false

/-- The boilerplate filter
`/PRESIDÊNCIA DA REPÚBLICA|CASA CIVIL|Subchefia para Assuntos Jurídicos/i`. -/
def boilerplateTest (t : List Char) : Bool :=
  ciContains "PRESIDÊNCIA DA REPÚBLICA".data t ||
  ciContains "CASA CIVIL".data t ||
  ciContains "Subchefia para Assuntos Jurídicos".data t

/-! ## Data model -/

/-- The element kinds of `RawConstitutionDataItem.elementType`. -/
inductive ElementType where
  | TITULO                           -- 'TÍTULO'
  | CAPITULO                         -- 'CAPÍTULO'
  | SECAO                            -- 'SEÇÃO'
  | SUBSECAO                         -- 'SUBSEÇÃO'
  | Artigo
  | Paragrafo                        -- 'Parágrafo'
  | Inciso
  | Alinea                           -- 'Alínea'
  | EMENDA_CONSTITUCIONAL            -- 'EMENDA CONSTITUCIONAL'
  | ADCT                             -- 'ATO DAS DISPOSIÇÕES CONSTITUCIONAIS TRANSITÓRIAS'
  | PREAMBULO                        -- 'PREÂMBULO'
  | TEXTO_CONSTITUCIONAL_PROMULGADO
  | ASSINATURA
  | LOCAL_DATA
  deriving DecidableEq, Repr

/-- The `type` values of `ConstitutionIndexSchema`: at runtime the
transformer stores the raw element-type value, or the distinguished
`'ADCTArtigo'`. -/
inductive DocType where
  | ofElement (e : ElementType)
  | ADCTArtigo
  deriving DecidableEq, Repr

/-- Record `HierarchicalContext` of `constitution-data.dto.ts`: the currently
active ancestor labels; `none` is JavaScript `undefined`. -/
structure HierarchicalContext where
  title : Option (List Char)
  chapter : Option (List Char)
  «section» : Option (List Char)
  subSection : Option (List Char)
  articleNumber : Option (List Char)
  deriving DecidableEq, Repr

/-- The empty context `{}` that `_parseConstitutionHtml` starts from. -/
def emptyContext : HierarchicalContext :=
  ⟨none, none, none, none, none⟩

/-- One input text block of `_parseConstitutionHtml`: the `<p>` element's
text together with the DOM-derived facts the classifier consults
(the spec's "rendering hints"). -/
structure PBlock where
  text : List Char            -- element.text()
  alignCenter : Bool          -- element.attr('align') === 'center'
  hasBold : Bool              -- element.find('b').length > 0
  hasLink : Bool              -- element.find('a').length > 0
  linkHref : List Char        -- element.find('a').attr('href') || ''
  inLayoutTable : Bool        -- element.parents('table').length > 0
  hasPlanaltoLink : Bool      -- element.find('a[href*="planalto.gov.br"]').length > 0
  hasBrasao : Bool            -- element.find('img[src*="brasao.png"]').length > 0
  nextPText : Option (List Char)  -- element.next('p').text() when a next <p> exists
  hasLaterBrasilia : Bool     -- $(el).nextAll('p:contains("Brasília")').length > 0
  deriving DecidableEq, Repr

/-- A plain text block with no markup hints, the common case. -/
def plainBlock (t : List Char) : PBlock :=
  ⟨t, false, false, false, [], false, false, false, none, false⟩

/-- A centered/bold heading block. -/
def headingBlock (t : List Char) : PBlock :=
  { plainBlock t with alignCenter := true, hasBold := true }

/-- Record `RawConstitutionDataItem`: one classified block.  `attributes` is
the string-to-string attribute record, modelled as an ordered association
list (the batch classifier stores at most `href`; the streaming parser
stores `id`, `class` and `href`). -/
structure RawConstitutionDataItem where
  elementType : ElementType
  text : List Char
  hierarchicalContext : HierarchicalContext
  attributes : List (List Char × List Char)
  lineNumber : Nat
  sourceUrl : List Char
  deriving DecidableEq, Repr

/-! ## The batch classifier (`_parseConstitutionHtml`) -/

/-- The skip filters at the top of the per-block loop: empty/short text,
boilerplate phrases, navigation links inside layout tables, and the
coat-of-arms header. -/
def blockSkipped (blk : PBlock) : Bool :=
  let text := normalizeWs blk.text
  text = [] || text.length < 3 || boilerplateTest text ||
  (blk.inLayoutTable && blk.hasPlanaltoLink && blk.text.length < 100) ||
  blk.hasBrasao

/-- The ordered classification chain of `_parseConstitutionHtml`
(lines 326-447 of the source), written as the same cascade of guards;
`none` means no rule fired and the continuation fallback applies. -/
def chainType (blk : PBlock) : Option ElementType :=
  let text := normalizeWs blk.text
  let hint := blk.alignCenter || blk.hasBold
  if matchEmenda text && hint then
    some .EMENDA_CONSTITUCIONAL
  else if ciStarts "ATO DAS DISPOSIÇÕES CONSTITUCIONAIS TRANSITÓRIAS".data text && hint then
    some .ADCT
  else if ciStarts "PREÂMBULO".data text && hint then
    some .PREAMBULO
  else if "TÍTULO".data.isPrefixOf text && hint then
    some .TITULO
  else if "CAPÍTULO".data.isPrefixOf text && hint then
    some .CAPITULO
  else if "Seção ".data.isPrefixOf text && hint then
    some .SECAO
  else if "Subseção ".data.isPrefixOf text && hint then
    some .SUBSECAO
  else if (artMatchLen text).isSome then
    some .Artigo
  else if (paraMatchLen text).isSome || "Parágrafo único.".data.isPrefixOf text then
    some .Paragrafo
  else if incisoDashTest text || "inciso ".data.isPrefixOf (jsLower text) then
    some .Inciso
  else if alineaTest text then
    some .Alinea
  else if blk.alignCenter && text = jsUpper text && 2 ≤ splitSpaceCount text &&
      splitSpaceCount text ≤ 5 && blk.hasLaterBrasilia then
    some .ASSINATURA
  else if localDataTest text && blk.alignCenter then
    some .LOCAL_DATA
  else if ciStarts "Nós, representantes do povo brasileiro".data text ||
      ciContains "A ASSEMBLEIA NACIONAL CONSTITUINTE".data text then
    some .TEXTO_CONSTITUCIONAL_PROMULGADO
  else
    none

/-- One step of the classification fold: the context update and the
emitted item (if any) for one block, given the running context and the
block's (already incremented) line number. -/
def classifyStep (url : List Char) (ctx : HierarchicalContext) (line : Nat)
    (blk : PBlock) : HierarchicalContext × Option RawConstitutionDataItem :=
  if blockSkipped blk then (ctx, none)
  else
    let text := normalizeWs blk.text
    let attrs : List (List Char × List Char) :=
      if blk.hasLink then [("href".data, blk.linkHref)] else []
    let emit (ty : ElementType) (ctx' : HierarchicalContext) (txt : List Char) :
        HierarchicalContext × Option RawConstitutionDataItem :=
      (ctx', if txt = [] then none else some ⟨ty, txt, ctx', attrs, line, url⟩)
    match chainType blk with
    | some .EMENDA_CONSTITUCIONAL =>
      emit .EMENDA_CONSTITUCIONAL ⟨some text, none, none, none, none⟩ text
    | some .ADCT =>
      emit .ADCT ⟨some text, none, none, none, none⟩ text
    | some .PREAMBULO =>
      emit .PREAMBULO ⟨some text, none, none, none, none⟩ text
    | some .TITULO =>
      emit .TITULO ⟨some text, none, none, none, none⟩ text
    | some .CAPITULO =>
      let ctx' : HierarchicalContext :=
        { ctx with
          chapter := some text
          «section» := none
          subSection := none
          articleNumber := none }
      emit .CAPITULO ctx' text
    | some .SECAO =>
      let ctx' : HierarchicalContext :=
        { ctx with
          «section» := some text
          subSection := none
          articleNumber := none }
      emit .SECAO ctx' text
    | some .SUBSECAO =>
      let ctx' : HierarchicalContext :=
        { ctx with
          subSection := some text
          articleNumber := none }
      emit .SUBSECAO ctx' text
    | some .Artigo =>
      let ctx' := { ctx with articleNumber := (artMatchLen text).map (text.take ·) }
      let stripped :=
        match artMatchLen text with
        | some n => jsTrim ((text.drop n).dropWhile jsIsWs)
        | none => text
      let txt :=
        if stripped = [] then
          match blk.nextPText with
          | some nt => normalizeWs nt
          | none => stripped
        else stripped
      emit .Artigo ctx' txt
    | some ty =>
      -- Parágrafo, Inciso, Alínea, ASSINATURA, LOCAL_DATA and the
      -- promulgation declaration leave the context untouched.
      emit ty ctx text
    | none =>
      -- Continuation fallback for unclassified substantive text.
      if 10 < text.length then
        if truthy ctx.articleNumber then emit .Artigo ctx text
        else if truthy ctx.title || truthy ctx.chapter || truthy ctx.«section» ||
            truthy ctx.subSection then
          let ty : ElementType :=
            if truthy ctx.subSection then .SUBSECAO
            else if truthy ctx.«section» then .SECAO
            else if truthy ctx.chapter then .CAPITULO
            else .TITULO
          emit ty ctx text
        else (ctx, none)
      else (ctx, none)

/-- The classification fold over all blocks; the line counter is
incremented for every block, also for skipped ones, exactly as in the
source. -/
def classifyAll (url : List Char) : HierarchicalContext → Nat → List PBlock →
    List RawConstitutionDataItem
  | _, _, [] => []
  | ctx, line, blk :: rest =>
    let s := classifyStep url ctx (line + 1) blk
    s.2.toList ++ classifyAll url s.1 (line + 1) rest

/-- Function `_parseConstitutionHtml`: classify every block starting from the empty
context and line counter 0. -/
def parseConstitutionHtml (url : List Char) (blocks : List PBlock) :
    List RawConstitutionDataItem :=
  classifyAll url emptyContext 0 blocks

/-! ## The transformer (`_transformData`) -/

/-- Slug computation `fullReference.replace(/[^a-zA-Z0-9]/g, '-')`. -/
def slugify (l : List Char) : List Char :=
  l.map (fun c => if jsIsAlnum c then c else '-')

/-- Fuel-indexed decimal printer; the fuel only bounds the recursion depth
and any fuel above the argument is enough. -/
def natToCharsAux : Nat → Nat → List Char
  | 0, _ => []
  | fuel + 1, n =>
    if n < 10 then [Nat.digitChar n]
    else natToCharsAux fuel (n / 10) ++ [Nat.digitChar (n % 10)]

/-- JavaScript number-to-string for the line counter (`${item.lineNumber}`):
usual decimal notation. -/
def natToChars (n : Nat) : List Char := natToCharsAux (n + 1) n

/-- Defaulting `a || 'Desconhecido'` on optional strings. -/
def orDefault (a : Option (List Char)) (d : List Char) : List Char :=
  if truthy a then a.getD [] else d

/-- One searchable unit, `ConstitutionIndexSchema` of the DTO. -/
structure ConstitutionIndexSchema where
  id : List Char
  «type» : DocType
  number : Option (List Char)
  fullReference : List Char
  text : List Char
  hierarchicalTextContext : List Char
  parentTitle : Option (List Char)
  parentChapter : Option (List Char)
  parentSection : Option (List Char)
  parentSubSection : Option (List Char)
  parentArticleNumber : Option (List Char)
  sourceUrl : List Char
  lastIndexedAt : Nat
  tags : List (List Char)
  deriving DecidableEq, Repr

/-- Insertion into the tag `Set` (insertion-ordered, duplicates ignored). -/
def addTag (tags : List (List Char)) (t : List Char) : List (List Char) :=
  if t ∈ tags then tags else tags ++ [t]

/-- Function `_extractTags`: the two truncated ancestor labels plus the fixed
keyword vocabulary matched case-insensitively against the text. -/
def extractTags (text : List Char) (context : HierarchicalContext) :
    List (List Char) :=
  let tags : List (List Char) := []
  let tags := if truthy context.title then addTag tags ((context.title.getD []).take 50) else tags
  let tags := if truthy context.chapter then addTag tags ((context.chapter.getD []).take 50) else tags
  let tags := if ciContains "direitos e garantias fundamentais".data text then
    addTag tags "Direitos Fundamentais".data else tags
  let tags := if ciContains "habeas corpus".data text then
    addTag tags "Habeas Corpus".data else tags
  let tags := if ciContains "poder legislativo".data text then
    addTag tags "Poder Legislativo".data else tags
  let tags := if ciContains "poder executivo".data text then
    addTag tags "Poder Executivo".data else tags
  let tags := if ciContains "poder judiciário".data text then
    addTag tags "Poder Judiciário".data else tags
  let tags := if ciContains "ordem econômica e financeira".data text then
    addTag tags "Ordem Econômica".data else tags
  let tags := if ciContains "meio ambiente".data text then
    addTag tags "Meio Ambiente".data else tags
  tags

/-- Token of `text.match(/^§\s*\d+º?\.?|^Parágrafo único\./i)?.[0]`. -/
def transParaToken (t : List Char) : Option (List Char) :=
  match paraMatchLen t with
  | some n => some (t.take n)
  | none =>
    if ciStarts "Parágrafo único.".data t then
      some (t.take ("Parágrafo único.".data.length))
    else none

/-- Case-insensitive roman-numeral letter, `[IVXLCDM]` under `/i`. -/
def romanCI (c : Char) : Bool := isRomanUpper (jsCharUpper c)

/-- Capture group 1 of `text.match` with the case-insensitive anchored
pattern "([IVXLCDM]+)\s*" followed by a dash (the transformer's first
inciso-number regex). -/
def incisoDashCapture (t : List Char) : Option (List Char) :=
  let rom := t.takeWhile romanCI
  if rom = [] then none
  else
    match (t.drop rom.length).dropWhile jsIsWs with
    | '-' :: _ => some rom
    | _ => none

/-- Capture group of `text.match(/^Inciso\s+([IVXLCDM]+)/i)?.[1]`. -/
def incisoWordCapture (t : List Char) : Option (List Char) :=
  if ciStarts "Inciso".data t then
    let r := t.drop 6
    if (r.takeWhile jsIsWs) = [] then none
    else
      let rom := (r.dropWhile jsIsWs).takeWhile romanCI
      if rom = [] then none else some rom
  else none

/-- Capture group of `text.match(/^([a-z])\)/i)?.[1]`. -/
def alineaCapture : List Char → Option (List Char)
  | c :: ')' :: _ =>
    if 'a' ≤ jsCharLower c ∧ jsCharLower c ≤ 'z' then some [c] else none
  | _ => none

/-- The fold state of `_transformData`: the reference parts being built and
the article number last seen. -/
structure TState where
  currentFullReferenceParts : List (List Char)
  lastArticleNumberForContext : Option (List Char)
  deriving DecidableEq, Repr

/-- The reference-building chain of `_transformData` (lines 527-605 of the
source): the updated fold state, the extracted `itemNumber` and the
`typeForIndex`, or `none` for the `continue` branch that skips
signature/date items. -/
def transformParts (st : TState) (item : RawConstitutionDataItem) :
    Option (TState × Option (List Char) × DocType) :=
  let ctx := item.hierarchicalContext
  match item.elementType with
  | .TITULO =>
    some (⟨[item.text], none⟩, none, .ofElement .TITULO)
  | .CAPITULO =>
    some (⟨[orDefault ctx.title "Desconhecido".data, item.text], none⟩,
      none, .ofElement .CAPITULO)
  | .SECAO =>
    some (⟨[orDefault ctx.title "Desconhecido".data,
      orDefault ctx.chapter "Desconhecido".data, item.text], none⟩,
      none, .ofElement .SECAO)
  | .SUBSECAO =>
    some (⟨[orDefault ctx.title "Desconhecido".data,
      orDefault ctx.chapter "Desconhecido".data,
      orDefault ctx.«section» "Desconhecido".data, item.text], none⟩,
      none, .ofElement .SUBSECAO)
  | .Artigo =>
    let itemNumber :=
      jsOrStr ctx.articleNumber ((artMatchLen item.text).map (item.text.take ·))
    let st' :=
      if truthy itemNumber then
        (⟨([orDefault ctx.title [], orDefault ctx.chapter [],
           orDefault ctx.«section» [], orDefault ctx.subSection [],
           itemNumber.getD []].filter (· ≠ [])), itemNumber⟩ : TState)
      else st
    some (st', itemNumber, .ofElement .Artigo)
  | .Paragrafo =>
    let itemNumber := transParaToken item.text
    let st' :=
      if truthy itemNumber then
        { st with currentFullReferenceParts :=
            st.currentFullReferenceParts ++ [itemNumber.getD []] }
      else st
    some (st', itemNumber, .ofElement .Paragrafo)
  | .Inciso =>
    let itemNumber := jsOrStr (incisoDashCapture item.text) (incisoWordCapture item.text)
    let st' :=
      if truthy itemNumber then
        { st with currentFullReferenceParts :=
            st.currentFullReferenceParts ++ ["Inciso ".data ++ itemNumber.getD []] }
      else st
    some (st', itemNumber, .ofElement .Inciso)
  | .Alinea =>
    let itemNumber := alineaCapture item.text
    let st' :=
      if truthy itemNumber then
        { st with currentFullReferenceParts :=
            st.currentFullReferenceParts ++ ["Alínea ".data ++ itemNumber.getD []] }
      else st
    some (st', itemNumber, .ofElement .Alinea)
  | .PREAMBULO =>
    some (⟨[item.text], none⟩, none, .ofElement .PREAMBULO)
  | .TEXTO_CONSTITUCIONAL_PROMULGADO =>
    some (⟨[item.text], none⟩, none, .ofElement .TEXTO_CONSTITUCIONAL_PROMULGADO)
  | .EMENDA_CONSTITUCIONAL =>
    some (⟨[item.text], none⟩, none, .ofElement .EMENDA_CONSTITUCIONAL)
  | .ADCT =>
    -- ADCT items whose text itself starts with an article token become the
    -- distinguished 'ADCTArtigo' sub-kind.
    match artMatchLen item.text with
    | some n =>
      let tok := item.text.take n
      some (⟨[item.text, orDefault (some tok) "Artigo ADCT".data], none⟩,
        some tok, .ADCTArtigo)
    | none =>
      some (⟨[item.text], none⟩, none, .ofElement .ADCT)
  | .ASSINATURA => none
  | .LOCAL_DATA => none

/-- The article-caption component of `hierarchicalTextContext`: for a
non-article item owning an article number, the text of the first article
item carrying the same number (`rawItems.find(...)?.text || ''`). -/
def articleCaption (rawItems : List RawConstitutionDataItem)
    (item : RawConstitutionDataItem) : List Char :=
  if item.elementType ≠ .Artigo ∧ truthy item.hierarchicalContext.articleNumber then
    match rawItems.find? (fun r =>
        decide (r.elementType = .Artigo) &&
        decide (r.hierarchicalContext.articleNumber =
          item.hierarchicalContext.articleNumber)) with
    | some r => r.text
    | none => []
  else []

/-- The document constructed at the common tail of the loop body
(lines 607-650 of the source). -/
def mkDoc (rawItems : List RawConstitutionDataItem) (now : Nat) (st' : TState)
    (item : RawConstitutionDataItem) (itemNumber : Option (List Char))
    (ty : DocType) : ConstitutionIndexSchema :=
  let fullReference := List.intercalate ", ".data
    (st'.currentFullReferenceParts.filter (fun p => jsTrim p ≠ []))
  let idSuffix := slugify fullReference ++ '-' :: natToChars item.lineNumber
  let comps := [item.hierarchicalContext.title.getD [],
    item.hierarchicalContext.chapter.getD [],
    item.hierarchicalContext.«section».getD [],
    item.hierarchicalContext.subSection.getD [],
    articleCaption rawItems item].filter (· ≠ [])
  { id := ("const-".data ++ jsLower idSuffix).take 512
    «type» := ty
    number := itemNumber.map jsTrim
    fullReference := fullReference
    text := jsTrim (removeFirst (itemNumber.getD []) item.text)
    hierarchicalTextContext :=
      List.intercalate " | ".data comps ++ " | ".data ++ item.text
    parentTitle := item.hierarchicalContext.title
    parentChapter := item.hierarchicalContext.chapter
    parentSection := item.hierarchicalContext.«section»
    parentSubSection := item.hierarchicalContext.subSection
    parentArticleNumber :=
      if item.elementType ≠ .Artigo then
        jsOrStr item.hierarchicalContext.articleNumber
          st'.lastArticleNumberForContext
      else none
    sourceUrl := item.sourceUrl
    lastIndexedAt := now
    tags := extractTags item.text item.hierarchicalContext }

/-- One iteration of the `_transformData` loop. -/
def transformStep (rawItems : List RawConstitutionDataItem) (now : Nat)
    (st : TState) (item : RawConstitutionDataItem) :
    TState × Option ConstitutionIndexSchema :=
  match transformParts st item with
  | none => (st, none)
  | some (st', itemNumber, ty) =>
    (st', some (mkDoc rawItems now st' item itemNumber ty))

/-- The `_transformData` loop over a tail of the item list, threading the
fold state.  `rawItems` stays the full list because the article-caption
lookup searches it globally. -/
def transformAux (rawItems : List RawConstitutionDataItem) (now : Nat) :
    TState → List RawConstitutionDataItem → List ConstitutionIndexSchema
  | _, [] => []
  | st, item :: rest =>
    let s := transformStep rawItems now st item
    s.2.toList ++ transformAux rawItems now s.1 rest

/-- Function `_transformData`: the indexing timestamp `Math.floor(Date.now()/1000)`
is an explicit parameter `now`. -/
def transformData (rawItems : List RawConstitutionDataItem) (now : Nat) :
    List ConstitutionIndexSchema :=
  transformAux rawItems now ⟨[], none⟩ rawItems

/-! ## The streaming parser (`streaming-html-parser.service.ts`)

The streaming service re-implements detection and context tracking with its
own rules.  A chunk is modelled at block granularity: the list of DOM
elements cheerio finds in it, plus the newline count of the raw chunk text
(`chunk.split('\n').length`), which is what the stream loop adds to its
line counter. -/

/-- One DOM element seen by `parseHtmlChunk`. -/
structure SBlock where
  text : List Char               -- $element.text()
  tagName : Option (List Char)   -- element.name for tag nodes
  attrId : Option (List Char)    -- $element.attr('id')
  attrClass : Option (List Char) -- $element.attr('class')
  attrHref : Option (List Char)  -- $element.attr('href')
  deriving DecidableEq, Repr

/-- One yielded chunk: its elements and its raw newline count. -/
structure SChunk where
  blocks : List SBlock
  newlineCount : Nat             -- chunk.split('\n').length
  deriving DecidableEq, Repr

/-- Roman-numeral letter of the streaming patterns, `[IVX]` under `/i`. -/
def romanIVX (c : Char) : Bool :=
  let u := jsCharUpper c
  u = 'I' || u = 'V' || u = 'X'

/-- Streaming heading pattern: the given word, `\s+`, then at least one
`[IVX]` letter (case-insensitively). -/
def headingNumPat (word : List Char) (t : List Char) : Bool :=
  ciStarts word t &&
    ((t.drop word.length).takeWhile jsIsWs ≠ []) &&
    romanIVX (((t.drop word.length).dropWhile jsIsWs).headD ' ')

/-- Unanchored search `text.match` with pattern "Art\.\s*(\d+)" and flag
`/i`: the digits captured at the first matching position. -/
def artSearchDigits : List Char → Option (List Char)
  | [] => none
  | c :: cs =>
    if ciStarts "Art.".data (c :: cs) then
      match takeDigits1 (((c :: cs).drop 4).dropWhile jsIsWs) with
      | some (ds, _) => some ds
      | none => artSearchDigits cs
    else artSearchDigits cs

/-- Function `detectElementType` of the streaming service.  The `tagName`
parameter is declared by the source but never consulted. -/
def detectElementType (text : List Char) (tagName : Option (List Char)) :
    Option ElementType :=
  let _ := tagName
  if headingNumPat "TÍTULO".data text then some .TITULO
  else if headingNumPat "CAPÍTULO".data text then some .CAPITULO
  else if headingNumPat "SEÇÃO".data text then some .SECAO
  else if headingNumPat "SUBSEÇÃO".data text then some .SUBSECAO
  else if ciStarts "Art.".data text &&
      jsIsDigit (((text.drop 4).dropWhile jsIsWs).headD ' ') then some .Artigo
  else if (match text with
      | '§' :: r => jsIsDigit ((r.dropWhile jsIsWs).headD ' ')
      | _ => false) then some .Paragrafo
  else if (let rom := text.takeWhile romanIVX
      rom ≠ [] &&
        (match (text.drop rom.length).dropWhile jsIsWs with
         | '-' :: _ => true
         | '–' :: _ => true
         | _ => false)) then some .Inciso
  else if (match text with
      | c :: ')' :: _ => 'a' ≤ jsCharLower c && jsCharLower c ≤ 'z'
      | _ => false) then some .Alinea
  else if csContains "Nós, representantes do povo brasileiro".data text then
    some .PREAMBULO
  else none

/-- Function `updateContext` of the streaming service. -/
def updateContext (currentContext : HierarchicalContext)
    (elementType : ElementType) (text : List Char) : HierarchicalContext :=
  match elementType with
  | .TITULO => ⟨some text, none, none, none, none⟩
  | .CAPITULO =>
    { currentContext with
      chapter := some text
      «section» := none
      subSection := none
      articleNumber := none }
  | .SECAO =>
    { currentContext with
      «section» := some text
      subSection := none
      articleNumber := none }
  | .SUBSECAO =>
    { currentContext with
      subSection := some text
      articleNumber := none }
  | .Artigo =>
    match artSearchDigits text with
    | some ds => { currentContext with articleNumber := some ("Art. ".data ++ ds) }
    | none => currentContext
  | _ => currentContext

/-- Function `extractAttributes` of the streaming service. -/
def extractAttributes (b : SBlock) : List (List Char × List Char) :=
  (match b.attrId with
   | some v => [("id".data, v)]
   | none => []) ++
  (match b.attrClass with
   | some v => [("class".data, v)]
   | none => []) ++
  (match b.attrHref with
   | some v => [("href".data, v)]
   | none => [])

/-- Function `parseHtmlChunk`: every element of the chunk is classified
against the chunk-start context (the source passes the unchanged `context`
parameter to `updateContext` for each element); the local line counter
starts at `startLineNumber` and advances only on emitted items. -/
def parseHtmlChunk (sourceUrl : List Char) (context : HierarchicalContext) :
    Nat → List SBlock → List RawConstitutionDataItem
  | _, [] => []
  | line, b :: bs =>
    let text := jsTrim b.text
    if text.length < 10 then parseHtmlChunk sourceUrl context line bs
    else
      match detectElementType text b.tagName with
      | none => parseHtmlChunk sourceUrl context line bs
      | some ty =>
        ⟨ty, text, updateContext context ty text, extractAttributes b, line, sourceUrl⟩ ::
          parseHtmlChunk sourceUrl context (line + 1) bs

/-- The chunk loop of `parseHtmlStream`: after a chunk that produced items,
the carried context becomes the last item's snapshot and the line counter
advances by the chunk's newline count; after an empty chunk both stay
unchanged. -/
def parseHtmlStreamLoop (sourceUrl : List Char) :
    HierarchicalContext → Nat → List SChunk → List RawConstitutionDataItem
  | _, _, [] => []
  | ctx, line, ch :: rest =>
    let items := parseHtmlChunk sourceUrl ctx line ch.blocks
    match items.getLast? with
    | some lastItem =>
      items ++ parseHtmlStreamLoop sourceUrl lastItem.hierarchicalContext
        (line + ch.newlineCount) rest
    | none => items ++ parseHtmlStreamLoop sourceUrl ctx line rest

/-- Function `parseHtmlStream`: process the chunk sequence from the empty
context and line counter 0. -/
def parseHtmlStream (sourceUrl : List Char) (chunks : List SChunk) :
    List RawConstitutionDataItem :=
  parseHtmlStreamLoop sourceUrl emptyContext 0 chunks

/-! ## The index gateway (`typesense.service.ts`)

The Typesense client is external; its calls are modelled as explicit
result values handed to the embedded functions: a retrieval outcome for
`ensureCollectionExists`, and a per-batch transport oracle for
`indexDocuments`.  The embedded functions return the calls they made and
the outcomes they observed; a thrown JavaScript error is an `Except.error`
value, and an error the source catches without rethrowing is recorded in
the returned value instead of propagating. -/

/-- Outcome of `collections(name).retrieve()`: success, the library's
`ObjectNotFound`, or any other error (identified by its HTTP status). -/
inductive TSRetrieveError where
  | objectNotFound
  | other (status : Nat)
  deriving DecidableEq, Repr

/-- Failure propagated out of `ensureCollectionExists`. -/
inductive EnsureFailure where
  | retrieveFailed (status : Nat)
  | createFailed (status : Nat)
  deriving DecidableEq, Repr

/-- Function `ensureCollectionExists`: given the retrieval outcome and the
behaviour of `collections().create`, produce the list of creation calls
made (each with the schema it was given) and the overall outcome. -/
def ensureCollectionExists {σ : Type} (retrieve : Except TSRetrieveError Unit)
    (create : σ → Except Nat Unit) (schema : σ) :
    List σ × Except EnsureFailure Unit :=
  match retrieve with
  | .ok _ => ([], .ok ())
  | .error .objectNotFound =>
    ([schema],
      match create schema with
      | .ok _ => .ok ()
      | .error s => .error (.createFailed s))
  | .error (.other s) => ([], .error (.retrieveFailed s))

/-- Retrieval outcome determined by whether the collection exists. -/
def retrieveFor (collectionExists : Bool) : Except TSRetrieveError Unit :=
  if collectionExists then .ok () else .error .objectNotFound

/-- State-level view of `ensureCollectionExists` against a live engine with
an always-succeeding create call: the new existence state and the number of
creation calls made. -/
def ensureStep {σ : Type} (collectionExists : Bool) (schema : σ) : Bool × Nat :=
  let r := ensureCollectionExists (σ := σ) (retrieveFor collectionExists)
    (fun _ => .ok ()) schema
  (collectionExists || !r.1.isEmpty, r.1.length)

/-- Fuel-indexed slicing loop; as long as the fuel is at least the list
length the fuel never runs out (each step with `0 < bs` consumes at least
one document). -/
def batchSlicesAux (bs : Nat) : Nat → List α → List (List α)
  | 0, _ => []
  | _, [] => []
  | fuel + 1, d :: ds =>
    if bs = 0 then []
    else (d :: ds).take bs :: batchSlicesAux bs fuel ((d :: ds).drop bs)

/-- Consecutive fixed-size slices of the document list, the batches of the
`indexDocuments` loop.  The source loop (`for i += batchSize`) diverges for
`batchSize ≤ 0`; the embedding returns no batches for `bs = 0` and
everything proved about it assumes `0 < bs`. -/
def batchSlices (bs : Nat) (docs : List α) : List (List α) :=
  batchSlicesAux bs docs.length docs

/-- Fuel-indexed batch loop of `indexDocuments`: each batch is paired with
the outcome of its own transport call (`import`), indexed by batch
ordinal.  A failed call is caught by the source and recorded; the loop
always continues. -/
def runBatchesAux (tr : Nat → List α → Except Nat (List Bool)) (bs : Nat) :
    Nat → Nat → List α → List (List α × Except Nat (List Bool))
  | _, 0, _ => []
  | _, _, [] => []
  | i, fuel + 1, d :: ds =>
    if bs = 0 then []
    else
      ((d :: ds).take bs, tr i ((d :: ds).take bs)) ::
        runBatchesAux tr bs (i + 1) fuel ((d :: ds).drop bs)

/-- The batch loop of `indexDocuments` starting at batch ordinal `i`. -/
def runBatches (tr : Nat → List α → Except Nat (List Bool)) (bs : Nat)
    (i : Nat) (docs : List α) : List (List α × Except Nat (List Bool)) :=
  runBatchesAux tr bs i docs.length docs

/-- Everything `indexDocuments` reports through its logger: the empty-input
warning, the per-batch outcomes (per-document success flags for a
transported batch, the logged error for a failed one), and whether the
final completion line was reached. -/
structure IndexReport (α : Type) where
  warnedEmpty : Bool
  batchResults : List (List α × Except Nat (List Bool))
  finishedLogged : Bool
  deriving Repr

/-- Function `indexDocuments`: empty input warns and returns before any
batch; otherwise every consecutive batch is attempted in order regardless
of earlier failures, and the function itself never fails (the source wraps
each transport call in try/catch that only logs). -/
def indexDocuments (tr : Nat → List α → Except Nat (List Bool))
    (documents : List α) (batchSize : Nat) : IndexReport α :=
  if documents.isEmpty then ⟨true, [], false⟩
  else ⟨false, runBatches tr batchSize 0 documents, true⟩

/-- Number of documents reported as indexed, read off the report: the
per-document success flags of every transported batch. -/
def indexedDocCount (rep : IndexReport α) : Nat :=
  (rep.batchResults.map (fun br =>
    match br.2 with
    | .ok results => (results.filter id).length
    | .error _ => 0)).sum

/-! ## Run orchestration (`processConstitution` and the app service) -/

/-- The error logged by the final catch of `processConstitution`. -/
inductive CriticalError where
  | schemaError (e : EnsureFailure)
  | fetchError (status : Nat)
  deriving DecidableEq, Repr

/-- Observable trace of one `processConstitution` run. -/
structure RunTrace where
  ensureOutcome : Except EnsureFailure Unit
  fetchAttempted : Bool
  rawData : Option (List RawConstitutionDataItem)
  documents : Option (List ConstitutionIndexSchema)
  indexReport : Option (IndexReport ConstitutionIndexSchema)
  criticalErrorLogged : Option CriticalError
  deriving Repr

/-- Function `processConstitution`: ensure the collection, fetch, parse,
transform, index — with the whole body wrapped in a catch that logs the
error and returns normally.  The fetch outcome is an explicit parameter
(`_fetchConstitutionHtml` rethrows its failure); a fetched document is
modelled by the block sequence the classifier would receive from it. -/
def processConstitution (ensureRes : Except EnsureFailure Unit)
    (fetchRes : Except Nat (List PBlock))
    (tr : Nat → List ConstitutionIndexSchema → Except Nat (List Bool))
    (url : List Char) (now : Nat) (batchSize : Nat) : RunTrace :=
  match ensureRes with
  | .error e => ⟨.error e, false, none, none, none, some (.schemaError e)⟩
  | .ok _ =>
    match fetchRes with
    | .error status => ⟨.ok (), true, none, none, none, some (.fetchError status)⟩
    | .ok blocks =>
      let rawData := parseConstitutionHtml url blocks
      if rawData = [] then
        ⟨.ok (), true, some rawData, none, none, none⟩
      else
        let documentsToIndex := transformData rawData now
        if documentsToIndex = [] then
          ⟨.ok (), true, some rawData, some documentsToIndex, none, none⟩
        else
          ⟨.ok (), true, some rawData, some documentsToIndex,
            some (indexDocuments tr documentsToIndex batchSize), none⟩

/-- The success message returned by the app service. -/
def successMessage : List Char :=
  "Constitution scraping and indexing process initiated successfully. Check logs for details.".data

/-- Function `triggerConstitutionScrapingAndIndexing` of `app.service.ts`:
it awaits `processConstitution` and returns the success message; since
`processConstitution` catches every error internally and resolves normally,
the service's own catch-and-rethrow can never fire. -/
def triggerConstitutionScrapingAndIndexing
    (ensureRes : Except EnsureFailure Unit)
    (fetchRes : Except Nat (List PBlock))
    (tr : Nat → List ConstitutionIndexSchema → Except Nat (List Bool))
    (url : List Char) (now : Nat) (batchSize : Nat) :
    Except (List Char) (List Char) :=
  let _trace := processConstitution ensureRes fetchRes tr url now batchSize
  Except.ok successMessage

/-! ## Concrete fixtures used by examples, witnesses and counterexamples -/

/-- The three blocks of the round-trip example, the first two carrying the
centered/bold rendering hints. -/
def roundTripBlocks : List PBlock :=
  [headingBlock "TÍTULO I".data,
   headingBlock "CAPÍTULO I".data,
   plainBlock "Art. 1º A República...".data]

/-- The article block text shared by the streaming comparison. -/
def artText : List Char := "Art. 1º A República...".data

/-- The article block as one streaming DOM element. -/
def artChunkBlock : SBlock := ⟨artText, some "p".data, none, none, none⟩

/-- The single-chunk document fed to the streaming path. -/
def singleChunk : List SChunk := [⟨[artChunkBlock], 1⟩]

/-- A transport oracle that always fails, for runs that never index. -/
def noTransport : Nat → List ConstitutionIndexSchema → Except Nat (List Bool) :=
  fun _ _ => Except.error 0

/-- A transport oracle over small numeric documents whose second batch
(ordinal 1) fails outright and whose other batches accept everything. -/
def failSecondTransport : Nat → List Nat → Except Nat (List Bool) :=
  fun i batch => if i = 1 then Except.error 500 else Except.ok (batch.map (fun _ => true))

/-- A 520-character title label, long enough that the slug of a full
reference built from it exceeds the 512-character identifier cap. -/
def longTitleText : List Char := List.replicate 520 'a'

/-- Context carrying the long title and an active article number. -/
def longTitleContext : HierarchicalContext :=
  ⟨some longTitleText, none, none, none, some "Art. 1º".data⟩

/-- Two distinct raw article elements sharing the long-reference context,
at sequence positions 1 and 2. -/
def collidingItem1 : RawConstitutionDataItem :=
  ⟨.Artigo, "xyz".data, longTitleContext, [], 1, []⟩

/-- Second colliding element, differing in text and sequence position. -/
def collidingItem2 : RawConstitutionDataItem :=
  ⟨.Artigo, "abc".data, longTitleContext, [], 2, []⟩

/-! ## The classification rule table (spec section 4.1, step 2) -/

/-- Amendment-declaration rule. -/
def ruleEmenda (blk : PBlock) : Bool :=
  matchEmenda (normalizeWs blk.text) && (blk.alignCenter || blk.hasBold)

/-- Transitional-provisions declaration rule. -/
def ruleADCT (blk : PBlock) : Bool :=
  ciStarts "ATO DAS DISPOSIÇÕES CONSTITUCIONAIS TRANSITÓRIAS".data
    (normalizeWs blk.text) && (blk.alignCenter || blk.hasBold)

/-- Preamble-declaration rule. -/
def rulePreambulo (blk : PBlock) : Bool :=
  ciStarts "PREÂMBULO".data (normalizeWs blk.text) &&
    (blk.alignCenter || blk.hasBold)

/-- Title-boundary rule: textual prefix plus a rendering hint. -/
def ruleTitulo (blk : PBlock) : Bool :=
  "TÍTULO".data.isPrefixOf (normalizeWs blk.text) &&
    (blk.alignCenter || blk.hasBold)

/-- Chapter-boundary rule: textual prefix plus a rendering hint. -/
def ruleCapitulo (blk : PBlock) : Bool :=
  "CAPÍTULO".data.isPrefixOf (normalizeWs blk.text) &&
    (blk.alignCenter || blk.hasBold)

/-- Section-boundary rule: textual prefix plus a rendering hint. -/
def ruleSecao (blk : PBlock) : Bool :=
  "Seção ".data.isPrefixOf (normalizeWs blk.text) &&
    (blk.alignCenter || blk.hasBold)

/-- Subsection-boundary rule: textual prefix plus a rendering hint. -/
def ruleSubsecao (blk : PBlock) : Bool :=
  "Subseção ".data.isPrefixOf (normalizeWs blk.text) &&
    (blk.alignCenter || blk.hasBold)

/-- Article rule. -/
def ruleArtigo (blk : PBlock) : Bool :=
  (artMatchLen (normalizeWs blk.text)).isSome

/-- Paragraph rule. -/
def ruleParagrafo (blk : PBlock) : Bool :=
  (paraMatchLen (normalizeWs blk.text)).isSome ||
    "Parágrafo único.".data.isPrefixOf (normalizeWs blk.text)

/-- Item (inciso) rule. -/
def ruleInciso (blk : PBlock) : Bool :=
  incisoDashTest (normalizeWs blk.text) ||
    "inciso ".data.isPrefixOf (jsLower (normalizeWs blk.text))

/-- Sub-item (alínea) rule. -/
def ruleAlinea (blk : PBlock) : Bool :=
  alineaTest (normalizeWs blk.text)

/-- Signature-block rule. -/
def ruleAssinatura (blk : PBlock) : Bool :=
  blk.alignCenter && normalizeWs blk.text = jsUpper (normalizeWs blk.text) &&
    2 ≤ splitSpaceCount (normalizeWs blk.text) &&
    splitSpaceCount (normalizeWs blk.text) ≤ 5 && blk.hasLaterBrasilia

/-- Date/place-line rule. -/
def ruleLocalData (blk : PBlock) : Bool :=
  localDataTest (normalizeWs blk.text) && blk.alignCenter

/-- Promulgation-declaration rule. -/
def rulePromulgado (blk : PBlock) : Bool :=
  ciStarts "Nós, representantes do povo brasileiro".data (normalizeWs blk.text) ||
    ciContains "A ASSEMBLEIA NACIONAL CONSTITUINTE".data (normalizeWs blk.text)

/-- The ordered rule table in the spec's priority order. -/
def ruleTable : List ((PBlock → Bool) × ElementType) :=
  [(ruleEmenda, .EMENDA_CONSTITUCIONAL),
   (ruleADCT, .ADCT),
   (rulePreambulo, .PREAMBULO),
   (ruleTitulo, .TITULO),
   (ruleCapitulo, .CAPITULO),
   (ruleSecao, .SECAO),
   (ruleSubsecao, .SUBSECAO),
   (ruleArtigo, .Artigo),
   (ruleParagrafo, .Paragrafo),
   (ruleInciso, .Inciso),
   (ruleAlinea, .Alinea),
   (ruleAssinatura, .ASSINATURA),
   (ruleLocalData, .LOCAL_DATA),
   (rulePromulgado, .TEXTO_CONSTITUCIONAL_PROMULGADO)]

/-- First-match-wins evaluation of a rule table. -/
def firstMatch : List ((PBlock → Bool) × ElementType) → PBlock → Option ElementType
  | [], _ => none
  | r :: rs, blk => if r.1 blk then some r.2 else firstMatch rs blk

/-- A fully populated context, exercising the clearing behaviour. -/
def fullContext : HierarchicalContext :=
  ⟨some "T1".data, some "C1".data, some "S1".data, some "SS1".data,
   some "Art. 9º".data⟩

/-- A plain paragraph block used by the rule-table witness. -/
def paraBlockW : PBlock :=
  plainBlock "§ 1º Ninguém será obrigado a fazer algo.".data

/-- The raw element the classifier emits for `paraBlockW`. -/
def paraItemW : RawConstitutionDataItem :=
  ⟨.Paragrafo, "§ 1º Ninguém será obrigado a fazer algo.".data, emptyContext,
   [], 1, []⟩

/-- Short concrete article element at sequence position 1. -/
def shortArt1 : RawConstitutionDataItem :=
  ⟨.Artigo, "Art. 1º Texto breve da norma.".data,
   ⟨none, none, none, none, some "Art. 1º".data⟩, [], 1, []⟩

/-- Short concrete article element at sequence position 2. -/
def shortArt2 : RawConstitutionDataItem :=
  ⟨.Artigo, "Art. 1º Texto breve da norma.".data,
   ⟨none, none, none, none, some "Art. 1º".data⟩, [], 2, []⟩

/-- The transformer state after either short article. -/
def shortState1 : TState := ⟨["Art. 1º".data], some "Art. 1º".data⟩

/-- The document emitted for `shortArt1`. -/
def shortDoc1 : ConstitutionIndexSchema :=
  mkDoc [shortArt1, shortArt2] 0 shortState1 shortArt1
    (some "Art. 1º".data) (.ofElement .Artigo)

/-- The document emitted for `shortArt2`. -/
def shortDoc2 : ConstitutionIndexSchema :=
  mkDoc [shortArt1, shortArt2] 0 shortState1 shortArt2
    (some "Art. 1º".data) (.ofElement .Artigo)

/-- Decimal parser inverting the printer, used only to prove injectivity. -/
def decodeDigits (l : List Char) : Nat :=
  l.foldl (fun a c => a * 10 + (c.toNat - 48)) 0

/-- The fold state of `_transformData` after consuming a prefix of the
item list. -/
def transStateAfter (raw : List RawConstitutionDataItem) (now : Nat) :
    TState → List RawConstitutionDataItem → TState
  | st, [] => st
  | st, it :: rest => transStateAfter raw now (transformStep raw now st it).1 rest

/-- A concrete article element owning `Art. 1º`, at position 1. -/
def artW : RawConstitutionDataItem :=
  ⟨.Artigo, "A República Federativa do Brasil.".data,
   ⟨none, none, none, none, some "Art. 1º".data⟩, [], 1, []⟩

/-- A concrete paragraph element immediately following `artW`, sharing its
context snapshot. -/
def paraW : RawConstitutionDataItem :=
  ⟨.Paragrafo, "§ 1º Todo o poder emana do povo.".data,
   ⟨none, none, none, none, some "Art. 1º".data⟩, [], 2, []⟩

/-! ## Batch-loop lemmas -/

theorem runBatchesAux_map_fst {α : Type} (tr : Nat → List α → Except Nat (List Bool))
    (bs : Nat) :
    ∀ (fuel : Nat) (docs : List α) (i : Nat), docs.length ≤ fuel →
      (runBatchesAux tr bs i fuel docs).map Prod.fst = batchSlicesAux bs fuel docs := by
  intro fuel
  induction fuel with
  | zero =>
    intro docs i h
    have : docs = [] := List.eq_nil_of_length_eq_zero (by omega)
    subst this
    rfl
  | succ fuel ih =>
    intro docs i h
    cases docs with
    | nil => rfl
    | cons d ds =>
      by_cases hbs : bs = 0
      · simp [runBatchesAux, batchSlicesAux, hbs]
      · simp only [runBatchesAux, batchSlicesAux, if_neg hbs, List.map_cons]
        congr 1
        apply ih
        simp only [List.length_cons] at h
        simp only [List.length_drop, List.length_cons]
        omega

theorem batchSlicesAux_join {α : Type} (bs : Nat) (hbs : 0 < bs) :
    ∀ (fuel : Nat) (docs : List α), docs.length ≤ fuel →
      (batchSlicesAux bs fuel docs).flatten = docs := by
  intro fuel
  induction fuel with
  | zero =>
    intro docs h
    have : docs = [] := List.eq_nil_of_length_eq_zero (by omega)
    subst this
    rfl
  | succ fuel ih =>
    intro docs h
    cases docs with
    | nil => rfl
    | cons d ds =>
      simp only [batchSlicesAux, if_neg (by omega : ¬ bs = 0), List.flatten_cons]
      rw [ih]
      · exact List.take_append_drop bs (d :: ds)
      · simp only [List.length_cons] at h
        simp only [List.length_drop, List.length_cons]
        omega

theorem batchSlicesAux_sizes {α : Type} (bs : Nat) (hbs : 0 < bs) :
    ∀ (fuel : Nat) (docs : List α), docs.length ≤ fuel →
      ∀ b ∈ batchSlicesAux bs fuel docs, b ≠ [] ∧ b.length ≤ bs := by
  intro fuel
  induction fuel with
  | zero =>
    intro docs h
    have : docs = [] := List.eq_nil_of_length_eq_zero (by omega)
    subst this
    intro b hb
    simp [batchSlicesAux] at hb
  | succ fuel ih =>
    intro docs h b hb
    cases docs with
    | nil => simp [batchSlicesAux] at hb
    | cons d ds =>
      simp only [batchSlicesAux, if_neg (by omega : ¬ bs = 0), List.mem_cons] at hb
      rcases hb with hb | hb
      · subst hb
        refine ⟨?_, by simp [List.length_take]⟩
        obtain ⟨m, rfl⟩ : ∃ m, bs = m + 1 := ⟨bs - 1, by omega⟩
        simp [List.take_succ_cons]
      · refine ih _ ?_ b hb
        simp only [List.length_cons] at h
        simp only [List.length_drop, List.length_cons]
        omega

theorem runBatchesAux_get? {α : Type} (tr : Nat → List α → Except Nat (List Bool))
    (bs : Nat) :
    ∀ (fuel : Nat) (docs : List α) (i k : Nat), docs.length ≤ fuel →
      (runBatchesAux tr bs i fuel docs).get? k =
        ((batchSlicesAux bs fuel docs).get? k).map (fun b => (b, tr (i + k) b)) := by
  intro fuel
  induction fuel with
  | zero =>
    intro docs i k h
    have : docs = [] := List.eq_nil_of_length_eq_zero (by omega)
    subst this
    rfl
  | succ fuel ih =>
    intro docs i k h
    cases docs with
    | nil => rfl
    | cons d ds =>
      by_cases hbs : bs = 0
      · simp [runBatchesAux, batchSlicesAux, hbs]
      · cases k with
        | zero => simp [runBatchesAux, batchSlicesAux, hbs]
        | succ k =>
          simp only [runBatchesAux, batchSlicesAux, if_neg hbs, List.get?_cons_succ]
          have hik : i + (k + 1) = (i + 1) + k := by omega
          rw [hik, ih _ (i + 1) k ?_]
          simp only [List.length_cons] at h
          simp only [List.length_drop, List.length_cons]
          omega

/-! ## Decimal-printer lemmas -/

theorem digitChar_mem (k : Nat) (h : k < 10) :
    Nat.digitChar k ∈ "0123456789".data := by
  interval_cases k <;> decide

theorem digitChar_toNat48 (k : Nat) (h : k < 10) :
    (Nat.digitChar k).toNat - 48 = k := by
  interval_cases k <;> decide

theorem natToCharsAux_digits :
    ∀ (fuel n : Nat), n < fuel → ∀ c ∈ natToCharsAux fuel n, c ∈ "0123456789".data := by
  intro fuel
  induction fuel with
  | zero => intro n h; omega
  | succ fuel ih =>
    intro n h c hc
    by_cases h10 : n < 10
    · simp only [natToCharsAux, if_pos h10, List.mem_singleton] at hc
      subst hc
      exact digitChar_mem n h10
    · simp only [natToCharsAux, if_neg h10, List.mem_append, List.mem_singleton] at hc
      rcases hc with hc | hc
      · refine ih (n / 10) ?_ c hc
        have := Nat.div_lt_self (show 0 < n by omega) (show 1 < 10 by omega)
        omega
      · subst hc
        exact digitChar_mem _ (Nat.mod_lt _ (by omega))

theorem natToChars_digits (n : Nat) :
    ∀ c ∈ natToChars n, c ∈ "0123456789".data :=
  natToCharsAux_digits (n + 1) n (Nat.lt_succ_self n)

theorem natToCharsAux_decode :
    ∀ (fuel n init : Nat), n < fuel →
      (natToCharsAux fuel n).foldl (fun a c => a * 10 + (c.toNat - 48)) init =
        init * 10 ^ (natToCharsAux fuel n).length + n := by
  intro fuel
  induction fuel with
  | zero => intro n init h; omega
  | succ fuel ih =>
    intro n init h
    by_cases h10 : n < 10
    · simp only [natToCharsAux, if_pos h10, List.foldl_cons, List.foldl_nil,
        List.length_singleton, pow_one]
      rw [digitChar_toNat48 n h10]
    · have hdiv : n / 10 < fuel := by
        have := Nat.div_lt_self (by omega : 0 < n) (by omega : 1 < 10)
        omega
      simp only [natToCharsAux, if_neg h10, List.foldl_append, List.foldl_cons,
        List.foldl_nil, List.length_append, List.length_singleton]
      rw [ih (n / 10) init hdiv, digitChar_toNat48 _ (Nat.mod_lt _ (by omega))]
      have hmod := Nat.div_add_mod n 10
      calc (init * 10 ^ (natToCharsAux fuel (n / 10)).length + n / 10) * 10 + n % 10
          = init * (10 ^ (natToCharsAux fuel (n / 10)).length * 10) +
              (n / 10 * 10 + n % 10) := by ring
        _ = init * 10 ^ ((natToCharsAux fuel (n / 10)).length + 1) + n := by
              rw [pow_succ]
              omega

theorem decode_natToChars (n : Nat) : decodeDigits (natToChars n) = n := by
  have := natToCharsAux_decode (n + 1) n 0 (Nat.lt_succ_self n)
  simpa [decodeDigits, natToChars] using this

theorem natToChars_inj {m n : Nat} (h : natToChars m = natToChars n) : m = n := by
  have hm := decode_natToChars m
  rw [h, decode_natToChars] at hm
  omega

/-! ## Identifier-suffix lemmas -/

theorem digits_chars_props :
    ∀ c ∈ "0123456789".data, c ≠ '-' ∧ jsCharLower c = c := by
  decide

theorem natToChars_no_dash (n : Nat) : ∀ c ∈ natToChars n, c ≠ '-' :=
  fun c hc => (digits_chars_props c (natToChars_digits n c hc)).1

theorem map_lower_fixed (l : List Char) (h : ∀ c ∈ l, jsCharLower c = c) :
    l.map jsCharLower = l := by
  induction l with
  | nil => rfl
  | cons c cs ih =>
    simp only [List.map_cons, h c (List.mem_cons_self c cs)]
    rw [ih (fun d hd => h d (List.mem_cons_of_mem c hd))]

theorem jsLower_suffix_split (ref : List Char) (line : Nat) :
    jsLower (slugify ref ++ '-' :: natToChars line) =
      jsLower (slugify ref) ++ '-' :: natToChars line := by
  simp only [jsLower, List.map_append, List.map_cons]
  rw [map_lower_fixed (natToChars line)
    (fun c hc => (digits_chars_props c (natToChars_digits line c hc)).2)]
  rfl

theorem takeWhile_all_stop (p : Char → Bool) :
    ∀ (l : List Char) (x : Char) (r : List Char),
      (∀ c ∈ l, p c = true) → p x = false →
      (l ++ x :: r).takeWhile p = l := by
  intro l
  induction l with
  | nil =>
    intro x r _ hx
    simp [List.takeWhile_cons, hx]
  | cons a l ih =>
    intro x r hall hx
    have ha : p a = true := hall a (List.mem_cons_self a l)
    simp only [List.cons_append, List.takeWhile_cons, ha, if_true]
    rw [ih x r (fun c hc => hall c (List.mem_cons_of_mem a hc)) hx]

theorem lastDash_inj (A B t1 t2 : List Char)
    (h1 : ∀ c ∈ t1, c ≠ '-') (h2 : ∀ c ∈ t2, c ≠ '-')
    (h : A ++ '-' :: t1 = B ++ '-' :: t2) : t1 = t2 := by
  have hr := congrArg List.reverse h
  simp only [List.reverse_append, List.reverse_cons, List.append_assoc,
    List.singleton_append] at hr
  have ht := congrArg (List.takeWhile (fun c => c != '-')) hr
  rw [takeWhile_all_stop _ t1.reverse '-' A.reverse
        (fun c hc => by
          have := h1 c (List.mem_reverse.mp hc)
          exact bne_iff_ne.mpr this)
        (by decide),
      takeWhile_all_stop _ t2.reverse '-' B.reverse
        (fun c hc => by
          have := h2 c (List.mem_reverse.mp hc)
          exact bne_iff_ne.mpr this)
        (by decide)] at ht
  exact List.reverse_injective ht

/-- Every document the transformer emits has the identifier shape
`slice(0, 512)` of `const-` + lowercased slug + dash + line number, for
some reference string. -/
theorem transformStep_id_shape (raw : List RawConstitutionDataItem)
    (now : Nat) (st : TState) (it : RawConstitutionDataItem)
    (st' : TState) (d : ConstitutionIndexSchema)
    (h : transformStep raw now st it = (st', some d)) :
    ∃ ref, d.id =
      ("const-".data ++ jsLower (slugify ref ++ '-' :: natToChars it.lineNumber)).take 512 := by
  unfold transformStep at h
  cases hp : transformParts st it with
  | none =>
    rw [hp] at h
    exact absurd (congrArg Prod.snd h) (by simp)
  | some trip =>
    obtain ⟨st'', num, ty⟩ := trip
    rw [hp] at h
    have hd : some (mkDoc raw now st'' it num ty) = some d := congrArg Prod.snd h
    injection hd with hd
    exact ⟨_, by rw [← hd]; rfl⟩

/-- An untruncated identifier is the full suffix form. -/
theorem id_untruncated (d : ConstitutionIndexSchema) (ref : List Char) (line : Nat)
    (hid : d.id =
      ("const-".data ++ jsLower (slugify ref ++ '-' :: natToChars line)).take 512)
    (hlen : d.id.length < 512) :
    d.id = "const-".data ++ (jsLower (slugify ref) ++ '-' :: natToChars line) := by
  have hfull :
      ("const-".data ++ jsLower (slugify ref ++ '-' :: natToChars line)).length < 512 := by
    have := congrArg List.length hid
    rw [List.length_take] at this
    omega
  rw [hid, List.take_of_length_le (by omega), jsLower_suffix_split]

/-- The timestamp does not influence an emitted document's identifier. -/
theorem mkDoc_id_now_free (raw : List RawConstitutionDataItem)
    (n1 n2 : Nat) (st : TState) (it : RawConstitutionDataItem)
    (num : Option (List Char)) (ty : DocType) :
    (mkDoc raw n1 st it num ty).id = (mkDoc raw n2 st it num ty).id := rfl

theorem transformAux_ids_now_free (raw : List RawConstitutionDataItem)
    (n1 n2 : Nat) :
    ∀ (items : List RawConstitutionDataItem) (st : TState),
      (transformAux raw n1 st items).map (fun d => d.id) =
        (transformAux raw n2 st items).map (fun d => d.id) := by
  intro items
  induction items with
  | nil => intro st; rfl
  | cons it rest ih =>
    intro st
    simp only [transformAux, transformStep]
    cases hp : transformParts st it with
    | none => simpa using ih st
    | some trip =>
      obtain ⟨st', num, ty⟩ := trip
      simp only [Option.toList_some, List.cons_append, List.nil_append, List.map_cons]
      rw [mkDoc_id_now_free raw n1 n2 st' it num ty, ih st']

/-! ## Transformer traversal lemmas -/

theorem transformAux_append (raw : List RawConstitutionDataItem) (now : Nat) :
    ∀ (xs : List RawConstitutionDataItem) (st : TState) (ys : List RawConstitutionDataItem),
      transformAux raw now st (xs ++ ys) =
        transformAux raw now st xs ++
          transformAux raw now (transStateAfter raw now st xs) ys := by
  intro xs
  induction xs with
  | nil => intro st ys; rfl
  | cons it rest ih =>
    intro st ys
    simp only [List.cons_append, transformAux, transStateAfter, List.append_eq]
    rw [ih, List.append_assoc]

theorem find?_first {α : Type} (p : α → Bool) :
    ∀ (l1 : List α) (x : α) (l2 : List α),
      (∀ r ∈ l1, p r = false) → p x = true →
      (l1 ++ x :: l2).find? p = some x := by
  intro l1
  induction l1 with
  | nil =>
    intro x l2 _ hx
    exact List.find?_cons_of_pos l2 hx
  | cons a l ih =>
    intro x l2 hall hx
    rw [List.cons_append, List.find?_cons_of_neg _ (by
      rw [hall a (List.mem_cons_self a l)]; exact Bool.false_ne_true)]
    exact ih x l2 (fun r hr => hall r (List.mem_cons_of_mem a hr)) hx

theorem mem_intercalate_infix (sep : List Char) :
    ∀ (parts : List (List Char)) (x : List Char), x ∈ parts →
      ∃ s t, List.intercalate sep parts = s ++ x ++ t := by
  intro parts
  induction parts with
  | nil => intro x hx; exact absurd hx (List.not_mem_nil x)
  | cons p ps ih =>
    intro x hx
    rcases List.mem_cons.mp hx with rfl | hx
    · cases ps with
      | nil =>
        exact ⟨[], [], by simp [List.intercalate, List.intersperse]⟩
      | cons q qs =>
        refine ⟨[], sep ++ List.intercalate sep (q :: qs), ?_⟩
        simp [List.intercalate, List.intersperse]
    · cases ps with
      | nil => exact absurd hx (List.not_mem_nil x)
      | cons q qs =>
        obtain ⟨s, t, hst⟩ := ih x hx
        refine ⟨p ++ sep ++ s, t, ?_⟩
        have hc : List.intercalate sep (p :: q :: qs) =
            p ++ sep ++ List.intercalate sep (q :: qs) := by
          simp [List.intercalate, List.intersperse]
        rw [hc, hst]
        simp [List.append_assoc]

/-! ## Claim theorems -/

/-- C10: for every batch size and transport behaviour, calling
`indexDocuments` with an empty documents array warns (`warnedEmpty`),
issues no import call (`batchResults = []`, so the transport oracle is
never consulted) and returns normally without reaching the completion log
line — a no-op rather than an error. -/
theorem indexDocuments_empty_noop (tr : Nat → List α → Except Nat (List Bool))
    (batchSize : Nat) :
    indexDocuments tr ([] : List α) batchSize =
      ⟨true, [], false⟩ := rfl

set_option maxRecDepth 40000 in
/-- C4 counterexample: two distinct raw elements (sequence positions 1 and
2) sharing a 520-character title context receive the *same* identifier:
the slug of the full reference exceeds the 512-character cap, so
`slice(0, 512)` truncates away the position suffix that was supposed to
disambiguate them, and both identifiers collapse to `const-` followed by
506 letters of the title slug. -/
theorem identifier_collision_counterexample :
    collidingItem1 ≠ collidingItem2 ∧
    collidingItem1.lineNumber ≠ collidingItem2.lineNumber ∧
    (transformData [collidingItem1, collidingItem2] 0).map (fun d => d.id) =
      List.replicate 2 ("const-".data ++ List.replicate 506 'a') := by
  refine ⟨by decide, by decide, by decide⟩

/-- C4 (amended): the transformer's identifiers are a pure deterministic
function of the raw-element sequence — two runs with different indexing
timestamps produce identical identifier sequences — and two raw elements
with distinct sequence positions receive distinct identifiers provided
both identifiers stay below the 512-character truncation cap (without
that proviso the claim fails, see the counterexample: truncation can cut
off the position disambiguator). -/
theorem identifier_determinism_and_distinctness :
    (∀ (raw : List RawConstitutionDataItem) (now1 now2 : Nat),
      (transformData raw now1).map (fun d => d.id) =
        (transformData raw now2).map (fun d => d.id)) ∧
    (∀ (raw : List RawConstitutionDataItem) (now : Nat) (st1 st2 st1' st2' : TState)
      (it1 it2 : RawConstitutionDataItem) (d1 d2 : ConstitutionIndexSchema),
      transformStep raw now st1 it1 = (st1', some d1) →
      transformStep raw now st2 it2 = (st2', some d2) →
      it1.lineNumber ≠ it2.lineNumber →
      d1.id.length < 512 → d2.id.length < 512 →
      d1.id ≠ d2.id) := by
  constructor
  · intro raw now1 now2
    exact transformAux_ids_now_free raw now1 now2 raw ⟨[], none⟩
  · intro raw now st1 st2 st1' st2' it1 it2 d1 d2 h1 h2 hline hlen1 hlen2 heq
    obtain ⟨r1, hid1⟩ := transformStep_id_shape raw now st1 it1 st1' d1 h1
    obtain ⟨r2, hid2⟩ := transformStep_id_shape raw now st2 it2 st2' d2 h2
    have hf1 := id_untruncated d1 r1 it1.lineNumber hid1 hlen1
    have hf2 := id_untruncated d2 r2 it2.lineNumber hid2 hlen2
    rw [hf1, hf2] at heq
    have hsuffix := List.append_cancel_left heq
    have hdigits := lastDash_inj (jsLower (slugify r1)) (jsLower (slugify r2))
      (natToChars it1.lineNumber) (natToChars it2.lineNumber)
      (natToChars_no_dash it1.lineNumber) (natToChars_no_dash it2.lineNumber)
      hsuffix
    exact hline (natToChars_inj hdigits)

/-- C4 witness: the theorem applied to two concrete short articles at
positions 1 and 2 (identifiers far below the cap) yields distinct
identifiers, and to a concrete one-element list under two different
timestamps yields identical identifiers. -/
theorem identifier_determinism_and_distinctness_witness :
    (transformStep [shortArt1, shortArt2] 0 ⟨[], none⟩ shortArt1 =
      (shortState1, some shortDoc1)) ∧
    (transformStep [shortArt1, shortArt2] 0 ⟨[], none⟩ shortArt2 =
      (shortState1, some shortDoc2)) ∧
    shortArt1.lineNumber ≠ shortArt2.lineNumber ∧
    shortDoc1.id.length < 512 ∧ shortDoc2.id.length < 512 ∧
    shortDoc1.id ≠ shortDoc2.id ∧
    ((transformData [shortArt1] 5).map (fun d => d.id) =
      (transformData [shortArt1] 99).map (fun d => d.id)) :=
  ⟨by decide, by decide, by decide, by decide, by decide,
   identifier_determinism_and_distinctness.2 [shortArt1, shortArt2] 0
     ⟨[], none⟩ ⟨[], none⟩ shortState1 shortState1 shortArt1 shortArt2
     shortDoc1 shortDoc2 (by decide) (by decide) (by decide) (by decide) (by decide),
   identifier_determinism_and_distinctness.1 [shortArt1] 5 99⟩

/-- C6: for every document list, positive batch size and transport
behaviour, `indexDocuments` partitions the documents into consecutive
fixed-size batches issued strictly in order (their concatenation is the
whole list, every batch is non-empty and at most the batch size); the k-th
recorded batch outcome is exactly the k-th slice paired with its own
transport call, independent of the outcomes of every other batch — so a
failed batch is recorded and every later batch is still attempted — and
on non-empty input the loop always reaches its completion log line (the
embedding returning a report rather than an `Except` mirrors the
per-batch try/catch that never rethrows). -/
theorem indexDocuments_batch_isolation {α : Type}
    (tr : Nat → List α → Except Nat (List Bool)) (docs : List α) (bs : Nat)
    (hbs : 0 < bs) :
    ((indexDocuments tr docs bs).batchResults.map Prod.fst = batchSlices bs docs) ∧
    ((batchSlices bs docs).flatten = docs) ∧
    (∀ b ∈ batchSlices bs docs, b ≠ [] ∧ b.length ≤ bs) ∧
    (∀ k, (indexDocuments tr docs bs).batchResults.get? k =
      ((batchSlices bs docs).get? k).map (fun b => (b, tr k b))) ∧
    (docs ≠ [] → (indexDocuments tr docs bs).warnedEmpty = false ∧
      (indexDocuments tr docs bs).finishedLogged = true) := by
  cases docs with
  | nil =>
    refine ⟨rfl, rfl, ?_, ?_, ?_⟩
    · intro b hb
      simp [batchSlices, batchSlicesAux] at hb
    · intro k
      rfl
    · intro hne
      exact absurd rfl hne
  | cons d ds =>
    have hrep : indexDocuments tr (d :: ds) bs =
        ⟨false, runBatches tr bs 0 (d :: ds), true⟩ := rfl
    refine ⟨?_, ?_, ?_, ?_, ?_⟩
    · rw [hrep]
      exact runBatchesAux_map_fst tr bs _ _ 0 le_rfl
    · exact batchSlicesAux_join bs hbs _ _ le_rfl
    · exact batchSlicesAux_sizes bs hbs _ _ le_rfl
    · intro k
      rw [hrep]
      have := runBatchesAux_get? tr bs (d :: ds).length (d :: ds) 0 k le_rfl
      simpa using this
    · intro _
      rw [hrep]
      exact ⟨rfl, rfl⟩

/-- C6 witness: six documents in batches of two under a transport whose
second batch (ordinal 1) fails: the theorem applies, all three batches are
attempted in order, the recorded outcomes are ok/error/ok, and the report
counts exactly the four documents of batches 1 and 3 as indexed. -/
theorem indexDocuments_batch_isolation_witness :
    (0 : Nat) < 2 ∧
    ((indexDocuments failSecondTransport [10, 11, 12, 13, 14, 15] 2).batchResults.map
      Prod.fst = batchSlices 2 [10, 11, 12, 13, 14, 15]) ∧
    ((indexDocuments failSecondTransport [10, 11, 12, 13, 14, 15] 2).batchResults.map
      Prod.snd = [Except.ok [true, true], Except.error 500, Except.ok [true, true]]) ∧
    indexedDocCount (indexDocuments failSecondTransport [10, 11, 12, 13, 14, 15] 2) = 4 :=
  ⟨by decide,
   (indexDocuments_batch_isolation failSecondTransport [10, 11, 12, 13, 14, 15] 2
     (by decide)).1,
   by decide, by decide⟩

/-- C7: `ensureCollectionExists` performs zero creation calls and returns
normally when retrieval succeeds; performs exactly one creation call, with
the given schema, when retrieval reports not-found; propagates any other
retrieval error; and, at the state level, running it against an existing
collection makes zero creation calls while running it against a missing
collection makes exactly one and leaves the collection existing, so a
second invocation makes zero creation calls. -/
theorem ensureCollectionExists_spec {σ : Type} (schema : σ)
    (create : σ → Except Nat Unit) :
    (ensureCollectionExists (σ := σ) (.ok ()) create schema = ([], .ok ())) ∧
    ((ensureCollectionExists (σ := σ) (.error .objectNotFound) create schema).1
      = [schema]) ∧
    (∀ status, ensureCollectionExists (σ := σ) (.error (.other status)) create schema
      = ([], .error (.retrieveFailed status))) ∧
    (ensureStep (σ := σ) true schema = (true, 0)) ∧
    (ensureStep (σ := σ) false schema = (true, 1)) ∧
    ((ensureStep (σ := σ) (ensureStep (σ := σ) false schema).1 schema).2 = 0) :=
  ⟨rfl, rfl, fun _ => rfl, rfl, rfl, rfl⟩

/-- C8 counterexample: with a failing fetch, `processConstitution` catches
the error in its final catch block (logging it) and returns normally, so
the caller of `triggerConstitutionScrapingAndIndexing` receives the plain
success message — the error does not unwind out of the top-level run to
the caller, contrary to the claim. -/
theorem fatalError_not_reported_to_caller :
    (processConstitution (.ok ()) (.error 500) noTransport [] 0 2).criticalErrorLogged
      = some (.fetchError 500) ∧
    triggerConstitutionScrapingAndIndexing (.ok ()) (.error 500) noTransport [] 0 2
      = .ok successMessage :=
  ⟨rfl, rfl⟩

/-- C8 (amended): a schema failure aborts the run before the fetch, before
any classification and before any documents are transformed or sent; a
fetch failure aborts before any classification; in both cases the error is
caught and logged by `processConstitution` itself, which returns normally,
so the app-service caller always receives the success message; only batch
errors are recorded per-batch inside the index report. -/
theorem fatalStage_aborts_run
    (tr : Nat → List ConstitutionIndexSchema → Except Nat (List Bool))
    (url : List Char) (now batchSize : Nat) :
    (∀ e fetchRes, processConstitution (.error e) fetchRes tr url now batchSize =
      ⟨.error e, false, none, none, none, some (.schemaError e)⟩) ∧
    (∀ status, processConstitution (.ok ()) (.error status) tr url now batchSize =
      ⟨.ok (), true, none, none, none, some (.fetchError status)⟩) ∧
    (∀ ensureRes fetchRes,
      triggerConstitutionScrapingAndIndexing ensureRes fetchRes tr url now batchSize
        = .ok successMessage) :=
  ⟨fun _ _ => rfl, fun _ => rfl, fun _ _ => rfl⟩

/-- C1: downward reset of the hierarchical context, for every accepted
block and every running context.  A TÍTULO rule match sets the title to
the block's normalized text and clears chapter, section, subsection and
article number; a CAPÍTULO match sets the chapter and clears section,
subsection and article number while keeping the title; a SEÇÃO match sets
the section and clears subsection and article number; a SUBSEÇÃO match
sets the subsection and clears the article number; Parágrafo, Inciso and
Alínea matches leave the context unchanged.  Hence an emitted element's
context snapshot never keeps a field below a boundary entered more
recently at a higher level. -/
theorem context_downward_reset (url : List Char) (ctx : HierarchicalContext)
    (line : Nat) (blk : PBlock) (hacc : blockSkipped blk = false) :
    (chainType blk = some .TITULO →
      (classifyStep url ctx line blk).1 =
        ⟨some (normalizeWs blk.text), none, none, none, none⟩) ∧
    (chainType blk = some .CAPITULO →
      (classifyStep url ctx line blk).1 =
        ⟨ctx.title, some (normalizeWs blk.text), none, none, none⟩) ∧
    (chainType blk = some .SECAO →
      (classifyStep url ctx line blk).1 =
        ⟨ctx.title, ctx.chapter, some (normalizeWs blk.text), none, none⟩) ∧
    (chainType blk = some .SUBSECAO →
      (classifyStep url ctx line blk).1 =
        ⟨ctx.title, ctx.chapter, ctx.«section», some (normalizeWs blk.text), none⟩) ∧
    (chainType blk = some .Paragrafo → (classifyStep url ctx line blk).1 = ctx) ∧
    (chainType blk = some .Inciso → (classifyStep url ctx line blk).1 = ctx) ∧
    (chainType blk = some .Alinea → (classifyStep url ctx line blk).1 = ctx) := by
  refine ⟨?_, ?_, ?_, ?_, ?_, ?_, ?_⟩ <;>
    · intro h
      simp only [classifyStep, hacc, Bool.false_eq_true, if_false, h]

/-- C1 witness: concrete boundary blocks against a fully populated
context: a new title clears every lower field, a new chapter keeps the
title and clears section/subsection/article, and a paragraph block leaves
the saturated context untouched. -/
theorem context_downward_reset_witness :
    blockSkipped (headingBlock "TÍTULO II".data) = false ∧
    chainType (headingBlock "TÍTULO II".data) = some .TITULO ∧
    (classifyStep [] fullContext 7 (headingBlock "TÍTULO II".data)).1 =
      ⟨some "TÍTULO II".data, none, none, none, none⟩ ∧
    blockSkipped (headingBlock "CAPÍTULO II".data) = false ∧
    chainType (headingBlock "CAPÍTULO II".data) = some .CAPITULO ∧
    (classifyStep [] fullContext 8 (headingBlock "CAPÍTULO II".data)).1 =
      ⟨some "T1".data, some "CAPÍTULO II".data, none, none, none⟩ ∧
    chainType (plainBlock "§ 1º Ninguém será obrigado...".data) = some .Paragrafo ∧
    (classifyStep [] fullContext 9 (plainBlock "§ 1º Ninguém será obrigado...".data)).1 =
      fullContext :=
  ⟨by decide, by decide,
   (context_downward_reset [] fullContext 7 _ (by decide)).1 (by decide),
   by decide, by decide,
   (context_downward_reset [] fullContext 8 _ (by decide)).2.1 (by decide),
   by decide,
   (context_downward_reset [] fullContext 9 _ (by decide)).2.2.2.2.1 (by decide)⟩

theorem firstMatch_rule_true :
    ∀ (rs : List ((PBlock → Bool) × ElementType)) (blk : PBlock) (ty : ElementType),
      firstMatch rs blk = some ty → ∃ p, (p, ty) ∈ rs ∧ p blk = true := by
  intro rs
  induction rs with
  | nil =>
    intro blk ty h
    exact Option.noConfusion h
  | cons r rs ih =>
    intro blk ty h
    simp only [firstMatch] at h
    by_cases hc : r.1 blk = true
    · rw [if_pos hc] at h
      injection h with h
      exact ⟨r.1, by rw [← h]; exact List.mem_cons_self _ _, hc⟩
    · rw [if_neg hc] at h
      obtain ⟨p, hmem, hp⟩ := ih blk ty h
      exact ⟨p, List.mem_cons_of_mem _ hmem, hp⟩

/-- C2: the classification chain of `_parseConstitutionHtml` equals
first-match-wins evaluation of the explicitly ordered rule table
(amendment, transitional provisions, preamble, title, chapter, section,
subsection, article, paragraph, item, sub-item, signature, date/place,
promulgation); each of the four boundary rules fires only with both its
textual prefix and a centered-or-bold rendering hint; and on an accepted
block whose chain fires, any emitted element carries exactly the matched
kind. -/
theorem classification_rule_table (blk : PBlock) :
    (chainType blk = firstMatch ruleTable blk) ∧
    (chainType blk = some .TITULO →
      ("TÍTULO".data.isPrefixOf (normalizeWs blk.text) &&
        (blk.alignCenter || blk.hasBold)) = true) ∧
    (chainType blk = some .CAPITULO →
      ("CAPÍTULO".data.isPrefixOf (normalizeWs blk.text) &&
        (blk.alignCenter || blk.hasBold)) = true) ∧
    (chainType blk = some .SECAO →
      ("Seção ".data.isPrefixOf (normalizeWs blk.text) &&
        (blk.alignCenter || blk.hasBold)) = true) ∧
    (chainType blk = some .SUBSECAO →
      ("Subseção ".data.isPrefixOf (normalizeWs blk.text) &&
        (blk.alignCenter || blk.hasBold)) = true) ∧
    (∀ ty item url ctx line, blockSkipped blk = false → chainType blk = some ty →
      (classifyStep url ctx line blk).2 = some item → item.elementType = ty) := by
  have htab : chainType blk = firstMatch ruleTable blk := rfl
  refine ⟨htab, ?_, ?_, ?_, ?_, ?_⟩
  · intro h
    rw [htab] at h
    obtain ⟨p, hmem, hp⟩ := firstMatch_rule_true ruleTable blk _ h
    simp only [ruleTable, List.mem_cons, List.not_mem_nil, or_false,
      Prod.mk.injEq, reduceCtorEq, and_false, false_and, false_or, or_false,
      and_true] at hmem
    rcases hmem with ⟨rfl, -⟩
    exact hp
  · intro h
    rw [htab] at h
    obtain ⟨p, hmem, hp⟩ := firstMatch_rule_true ruleTable blk _ h
    simp only [ruleTable, List.mem_cons, List.not_mem_nil, or_false,
      Prod.mk.injEq, reduceCtorEq, and_false, false_and, false_or, or_false,
      and_true] at hmem
    rcases hmem with ⟨rfl, -⟩
    exact hp
  · intro h
    rw [htab] at h
    obtain ⟨p, hmem, hp⟩ := firstMatch_rule_true ruleTable blk _ h
    simp only [ruleTable, List.mem_cons, List.not_mem_nil, or_false,
      Prod.mk.injEq, reduceCtorEq, and_false, false_and, false_or, or_false,
      and_true] at hmem
    rcases hmem with ⟨rfl, -⟩
    exact hp
  · intro h
    rw [htab] at h
    obtain ⟨p, hmem, hp⟩ := firstMatch_rule_true ruleTable blk _ h
    simp only [ruleTable, List.mem_cons, List.not_mem_nil, or_false,
      Prod.mk.injEq, reduceCtorEq, and_false, false_and, false_or, or_false,
      and_true] at hmem
    rcases hmem with ⟨rfl, -⟩
    exact hp
  · intro ty item url ctx line hacc h hstep
    cases ty <;>
      · simp only [classifyStep, hacc, Bool.false_eq_true, if_false, h] at hstep
        repeat' split at hstep
        all_goals
          first
            | exact Option.noConfusion hstep
            | (injection hstep with h2; subst h2; rfl)

/-- C2 witness: the chain agrees with the rule table on a concrete title
block, and a concrete accepted paragraph block is emitted with exactly the
matched paragraph kind. -/
theorem classification_rule_table_witness :
    (chainType (headingBlock "TÍTULO II".data) =
      firstMatch ruleTable (headingBlock "TÍTULO II".data)) ∧
    firstMatch ruleTable (headingBlock "TÍTULO II".data) = some .TITULO ∧
    blockSkipped paraBlockW = false ∧
    chainType paraBlockW = some .Paragrafo ∧
    (classifyStep [] emptyContext 1 paraBlockW).2 = some paraItemW ∧
    paraItemW.elementType = .Paragrafo :=
  ⟨(classification_rule_table (headingBlock "TÍTULO II".data)).1,
   by decide, by decide, by decide, by decide,
   (classification_rule_table paraBlockW).2.2.2.2.2 .Paragrafo paraItemW []
     emptyContext 1 (by decide) (by decide) (by decide)⟩

/-- C3: classifying the three example blocks and transforming the result
yields exactly one document of kind article; its full reference is
`TÍTULO I, CAPÍTULO I, Art. 1º` and its text is `A República...` with the
leading number token stripped. -/
theorem roundTrip_example :
    ((transformData (parseConstitutionHtml [] roundTripBlocks) 0).filter
        (fun d => d.«type» = .ofElement .Artigo)).map
        (fun d => (d.fullReference, d.text)) =
      [("TÍTULO I, CAPÍTULO I, Art. 1º".data, "A República...".data)] := by
  decide

/-- C5: the streaming path is not equivalent to the one-pass classifier.
On a document consisting of the single block `Art. 1º A República...`
(one chunk), the one-pass classifier emits the article with the number
token stripped from its text, article-number snapshot `Art. 1º` and
position 1, while the streaming path emits the unstripped text,
article-number `Art. 1` and position 0 — different texts, contexts and
positions, hence different downstream identifiers. -/
theorem streaming_not_equivalent :
    (parseConstitutionHtml [] [plainBlock artText]).map
        (fun r => (r.text, r.lineNumber, r.hierarchicalContext.articleNumber)) =
      [("A República...".data, 1, some "Art. 1º".data)] ∧
    (parseHtmlStream [] singleChunk).map
        (fun r => (r.text, r.lineNumber, r.hierarchicalContext.articleNumber)) =
      [(artText, 0, some "Art. 1".data)] ∧
    parseHtmlStream [] singleChunk ≠ parseConstitutionHtml [] [plainBlock artText] := by
  refine ⟨by decide, by decide, by decide⟩

theorem transformParts_paragrafo (st : TState) (item : RawConstitutionDataItem)
    (h : item.elementType = .Paragrafo) :
    ∃ st', transformParts st item =
      some (st', transParaToken item.text, .ofElement .Paragrafo) := by
  simp only [transformParts, h]
  exact ⟨_, rfl⟩

/-- C9: a paragraph immediately following an article whose context
snapshot carries that article's number `a` (with no earlier article in the
sequence carrying `a`) is transformed into a document placed right after
the documents of the prefix-plus-article, with `parentArticleNumber = a`
and with the owning article's caption text embedded in its
`hierarchicalTextContext`. -/
theorem paragraph_parent_linkage
    (pre rest : List RawConstitutionDataItem)
    (art para : RawConstitutionDataItem) (now : Nat) (a : List Char)
    (hart : art.elementType = .Artigo)
    (hpara : para.elementType = .Paragrafo)
    (hartNum : art.hierarchicalContext.articleNumber = some a)
    (hparaNum : para.hierarchicalContext.articleNumber = some a)
    (ha : a ≠ [])
    (hpre : ∀ r ∈ pre, ¬(r.elementType = .Artigo ∧
      r.hierarchicalContext.articleNumber = some a)) :
    ∃ l1 d l2,
      transformData (pre ++ art :: para :: rest) now = l1 ++ d :: l2 ∧
      l1.length = (transformAux (pre ++ art :: para :: rest) now ⟨[], none⟩
        (pre ++ [art])).length ∧
      d.parentArticleNumber = some a ∧
      ∃ s t, d.hierarchicalTextContext = s ++ art.text ++ t := by
  have happ := transformAux_append (pre ++ art :: para :: rest) now
    (pre ++ [art]) ⟨[], none⟩ (para :: rest)
  have hlist : (pre ++ [art]) ++ (para :: rest) = pre ++ art :: para :: rest := by
    simp
  rw [hlist] at happ
  obtain ⟨st', hparts⟩ := transformParts_paragrafo
    (transStateAfter (pre ++ art :: para :: rest) now ⟨[], none⟩ (pre ++ [art])) para hpara
  have hstep : transformStep (pre ++ art :: para :: rest) now
      (transStateAfter (pre ++ art :: para :: rest) now ⟨[], none⟩ (pre ++ [art])) para =
      (st', some (mkDoc (pre ++ art :: para :: rest) now st' para
        (transParaToken para.text) (.ofElement .Paragrafo))) := by
    unfold transformStep
    rw [hparts]
  have hcond : para.elementType ≠ ElementType.Artigo ∧
      truthy para.hierarchicalContext.articleNumber = true := by
    constructor
    · rw [hpara]
      simp
    · rw [hparaNum]
      simp [truthy, ha]
  have hfind : (pre ++ art :: para :: rest).find? (fun r =>
      decide (r.elementType = .Artigo) &&
      decide (r.hierarchicalContext.articleNumber =
        para.hierarchicalContext.articleNumber)) = some art := by
    apply find?_first
    · intro r hr
      have h' := hpre r hr
      by_cases hA : r.elementType = .Artigo
      · by_cases hB : r.hierarchicalContext.articleNumber = some a
        · exact absurd ⟨hA, hB⟩ h'
        · rw [hparaNum]
          simp [hB]
      · simp [hA]
    · simp [hart, hartNum, hparaNum]
  have hcap : articleCaption (pre ++ art :: para :: rest) para = art.text := by
    unfold articleCaption
    rw [if_pos hcond, hfind]
  refine ⟨transformAux (pre ++ art :: para :: rest) now ⟨[], none⟩ (pre ++ [art]),
    mkDoc (pre ++ art :: para :: rest) now st' para (transParaToken para.text)
      (.ofElement .Paragrafo),
    transformAux (pre ++ art :: para :: rest) now st' rest, ?_, rfl, ?_, ?_⟩
  · show transformAux (pre ++ art :: para :: rest) now ⟨[], none⟩
      (pre ++ art :: para :: rest) = _
    rw [happ]
    congr 1
    simp only [transformAux, hstep, Option.toList_some, List.cons_append,
      List.nil_append]
  · simp only [mkDoc, hpara, hparaNum]
    simp [jsOrStr, truthy, ha]
  · by_cases hat : art.text = []
    · refine ⟨[], (mkDoc (pre ++ art :: para :: rest) now st' para
        (transParaToken para.text) (.ofElement .Paragrafo)).hierarchicalTextContext, ?_⟩
      rw [hat]
      simp
    · have hmem : art.text ∈
          ([para.hierarchicalContext.title.getD [],
            para.hierarchicalContext.chapter.getD [],
            para.hierarchicalContext.«section».getD [],
            para.hierarchicalContext.subSection.getD [],
            articleCaption (pre ++ art :: para :: rest) para].filter
              (fun x => x ≠ [])) := by
        rw [List.mem_filter]
        constructor
        · rw [hcap]
          simp
        · simp [hat]
      obtain ⟨s, t, hst⟩ :=
        mem_intercalate_infix " | ".data _ art.text hmem
      refine ⟨s, t ++ " | ".data ++ para.text, ?_⟩
      simp only [mkDoc]
      rw [hst]
      simp [List.append_assoc]

/-- C9 witness: the theorem applied to a concrete article/paragraph pair
sharing the number `Art. 1º`. -/
theorem paragraph_parent_linkage_witness :
    ∃ l1 d l2,
      transformData ([] ++ artW :: paraW :: []) 0 = l1 ++ d :: l2 ∧
      l1.length = (transformAux ([] ++ artW :: paraW :: []) 0 ⟨[], none⟩
        ([] ++ [artW])).length ∧
      d.parentArticleNumber = some "Art. 1º".data ∧
      ∃ s t, d.hierarchicalTextContext = s ++ artW.text ++ t :=
  paragraph_parent_linkage [] [] artW paraW 0 "Art. 1º".data rfl rfl rfl rfl
    (by decide) (by simp)

end ConstitutionSearch
